import Mathlib

/-!
Verification of the package-scout virtual package resolution and
bundling-analysis pipeline.

The definitions below are a shallow embedding of the TypeScript sources:
`CDNPackageManager.ts`, `WasmBundler.ts` (bundlers), and
`BrowserPackageAnalyzer.ts` (core orchestrator).  External collaborators
(the network, the esbuild engine, the terser minifier, the WebContainer
sandbox) are modelled as explicit function parameters; JavaScript `Map`s
are modelled as insertion-ordered association lists; JavaScript strings
are Lean strings with hand-rolled, kernel-computable split/join/affix
helpers mirroring `String.prototype` methods.
-/

namespace PackageScout

/-! ## String helpers mirroring JavaScript string methods -/

/-- Splits a character list at every occurrence of `c`, mirroring
JavaScript `String.prototype.split` with a single-character separator
(the empty string splits to `[""]`). -/
def chSplit (c : Char) : List Char → List (List Char)
  | [] => [[]]
  | x :: xs =>
    if x = c then [] :: chSplit c xs
    else
      match chSplit c xs with
      | [] => [[x]]
      | g :: gs => (x :: g) :: gs

/-- JavaScript `s.split('/')`. -/
def sSplitSlash (s : String) : List String :=
  (chSplit '/' s.data).map (fun l => ⟨l⟩)

/-- JavaScript `parts.join(sep)`. -/
def sJoinWith (sep : String) : List String → String
  | [] => ""
  | x :: xs => xs.foldl (fun acc p => acc ++ sep ++ p) x

/-- Prefix test on character lists (decidable, structural). -/
def listStarts : List Char → List Char → Bool
  | [], _ => true
  | _ :: _, [] => false
  | a :: as, b :: bs => a = b && listStarts as bs

/-- JavaScript `s.startsWith(pre)`. -/
def strStarts (s pre : String) : Bool := listStarts pre.data s.data

/-- JavaScript `s.endsWith(suf)`. -/
def strEnds (s suf : String) : Bool := listStarts suf.data.reverse s.data.reverse

/-- UTF-8 byte count of one scalar value, as produced by `TextEncoder`. -/
def charUtf8Size (c : Char) : Nat :=
  if c.toNat < 128 then 1
  else if c.toNat < 2048 then 2
  else if c.toNat < 65536 then 3
  else 4

/-- `new TextEncoder().encode(s).length`: the UTF-8 byte length of `s`. -/
def utf8Len (s : String) : Nat := s.data.foldl (fun n c => n + charUtf8Size c) 0

/-! ## JavaScript `Map<string, string>` as an insertion-ordered association list -/

/-- `m.has(k)`. -/
def hasKey (m : List (String × String)) (k : String) : Bool :=
  m.any (fun p => p.1 = k)

/-- `m.get(k)` (`none` plays the role of `undefined`). -/
def getKey (m : List (String × String)) (k : String) : Option String :=
  (m.find? (fun p => p.1 = k)).map (fun p => p.2)

/-- `m.set(k, v)`: update in place if the key exists, else append. -/
def mapSet (m : List (String × String)) (k v : String) : List (String × String) :=
  if hasKey m k then m.map (fun p => if p.1 = k then (k, v) else p)
  else m ++ [(k, v)]

/-- The key list of the map, in insertion order. -/
def mapKeys (m : List (String × String)) : List String := m.map (fun p => p.1)

/-! ## Data model (`types.ts`) -/

/-- `CDNFile.type`: `'file' | 'directory'`. -/
inductive FKind where
  | file
  | directory
deriving DecidableEq

/-- `CDNFile` from `types.ts` (the optional `content` field is unused by
the functions under study and omitted). -/
structure CDNFile where
  path : String
  size : Nat
  type : FKind
deriving DecidableEq

/-- The fields of `CDNPackageInfo` consumed by the functions under study
(`name`, `version`, `files`, and the `main`/`module` entry fields; a
missing manifest field is `none`). -/
structure CDNPackageInfo where
  name : String
  version : String
  files : List CDNFile
  main : Option String
  module : Option String

/-- `Asset` from `types.ts` (the `type` union collapsed to a string tag). -/
structure Asset where
  name : String
  size : Nat
  gzipSize : Nat
  type : String
deriving DecidableEq

/-- `PackageStats` from `types.ts` (numeric fields as `Nat`,
`hasSideEffects` collapsed to its boolean reading, `dependencySizes`
omitted as it is always `[]` in the code under study). -/
structure PackageStats where
  name : String
  size : Nat
  gzipSize : Nat
  parseTime : Option Nat
  dependencyCount : Nat
  hasJSNext : Bool
  hasJSModule : Bool
  isModuleType : Bool
  hasSideEffects : Bool
  peerDependencies : List String
  assets : List Asset
deriving DecidableEq

/-- `ExportAsset` from `types.ts`. -/
structure ExportAsset where
  path : String
  size : Nat
  gzipSize : Nat
  exportName : String
deriving DecidableEq

/-! ## WasmBundler: module resolution (`resolveImport`, `resolvePath`) -/

/-- The fixed suffix probe order of `WasmBundler.resolveImport`. -/
def extList : List String :=
  ["", ".js", ".mjs", ".ts", "/index.js", "/index.mjs", "/index.ts"]

/-- `WasmBundler.resolvePath`: split both paths on `/`, drop empty
segments, then fold the relative segments onto the base segments,
popping on `..` and skipping `.`. -/
def resolvePath (basePath relativePath : String) : String :=
  let parts := (sSplitSlash basePath).filter (fun p => p ≠ "")
  let relParts := (sSplitSlash relativePath).filter (fun p => p ≠ "")
  sJoinWith "/"
    (relParts.foldl
      (fun acc part =>
        if part = ".." then acc.dropLast
        else if part = "." then acc
        else acc ++ [part])
      parts)

/-- The bare-specifier candidate list of `WasmBundler.resolveImport`. -/
def packagePathCandidates (importPath : String) : List String :=
  [ "node_modules/" ++ importPath
  , "node_modules/" ++ importPath ++ "/index.js"
  , "node_modules/" ++ importPath ++ "/index.mjs"
  , "node_modules/" ++ importPath ++ "/dist/index.js"
  , "node_modules/" ++ importPath ++ "/lib/index.js" ]

/-- `WasmBundler.resolveImport`: relative specifiers are joined onto the
importer's directory and probed with the suffixes of `extList` in order;
bare specifiers are probed against `node_modules` conventions; anything
else (and any miss) yields `none`. -/
def resolveImport (importPath importer : String)
    (files : List (String × String)) : Option String :=
  let relMatch : Option String :=
    if strStarts importPath "./" || strStarts importPath "../" then
      let importerDir := sJoinWith "/" ((sSplitSlash importer).dropLast)
      let resolved := resolvePath importerDir importPath
      (extList.find? (fun ext => hasKey files (resolved ++ ext))).map
        (fun ext => resolved ++ ext)
    else none
  match relMatch with
  | some r => some r
  | none =>
    if !strStarts importPath "." then
      (packagePathCandidates importPath).find? (fun p => hasKey files p)
    else none

/-- The joined path a relative specifier is resolved against:
`resolvePath` applied to the importer's directory
(`importer.split('/').slice(0, -1).join('/')`) and the specifier. -/
def relJoin (importPath importer : String) : String :=
  resolvePath (sJoinWith "/" ((sSplitSlash importer).dropLast)) importPath

/-! ## WasmBundler: compressed-size fallback (`calculateGzipSize`)

`calculateGzipSize` is modelled in an environment without
`CompressionStream`, i.e. the deterministic estimate branch
`Math.round(new TextEncoder().encode(content).length * 0.7)`.  The
JavaScript arithmetic is IEEE-754 binary64 and is embedded exactly over
`Nat`: the literal `0.7` denotes the double `3152519739159347 / 2^52`,
the product is rounded to 53 significant bits (ties to even), and
`Math.round` rounds half-up on the resulting dyadic rational. -/

/-- Fuel-driven floor of `log2` (structural, kernel-computable; exact
for arguments below `2 ^ fuel`). -/
def log2fuel : Nat → Nat → Nat
  | 0, _ => 0
  | fuel + 1, n => if n < 2 then 0 else log2fuel fuel (n / 2) + 1

/-- The significand of the binary64 literal `0.7`:
`0.7 = 3152519739159347 / 2^52` exactly. -/
def double0_7mant : Nat := 3152519739159347

/-- The binary64 product `n * 0.7` for a natural `n`, returned scaled by
`2^52`: the exact integer product is rounded to at most 53 significant
bits with round-to-nearest, ties-to-even. -/
def doubleTimes0_7 (n : Nat) : Nat :=
  let p := n * double0_7mant
  if p < 2 ^ 53 then p
  else
    let s := log2fuel 200 p - 52
    let q := p / 2 ^ s
    let r := p % 2 ^ s
    let q2 :=
      if 2 * r > 2 ^ s then q + 1
      else if 2 * r < 2 ^ s then q
      else if q % 2 = 0 then q else q + 1
    q2 * 2 ^ s

/-- `Math.round` applied to the nonnegative dyadic rational `a / 2^52`:
the nearest integer, ties toward positive infinity. -/
def jsMathRound52 (a : Nat) : Nat := (a + 2 ^ 51) / 2 ^ 52

/-- The fallback estimate as a function of the byte length `n`:
`Math.round(n * 0.7)` in binary64 arithmetic. -/
def gzipFallbackOfLen (n : Nat) : Nat := jsMathRound52 (doubleTimes0_7 n)

/-- `WasmBundler.calculateGzipSize` in an environment without
`CompressionStream`: `Math.round(byteLength(content) * 0.7)`. -/
def calculateGzipSize (content : String) : Nat :=
  gzipFallbackOfLen (utf8Len content)

/-- Modelled from the spec's words, for comparison with the code:
"`compressedSize(code) == round(byteLength(code) × 0.7)` exactly", with
`round` the exact rounding (half-up) of the rational `7n/10`. -/
def specGzipEstimate (content : String) : Nat :=
  (7 * utf8Len content + 5) / 10

/-! ## WasmBundler: minification (`minifyCode`) -/

/-- The `minifier` argument of `WasmBundler.minifyCode`. -/
inductive Minifier where
  | terser
  | esbuild
deriving DecidableEq

/-- The record returned by `WasmBundler.minifyCode`. -/
structure MinifyResult where
  code : String
  size : Nat
  gzipSize : Nat
deriving DecidableEq

/-- `WasmBundler.minifyCode`.  The two opaque minifier collaborators are
passed explicitly: `esbuildTransform` models `esbuild.transform` (its
`result.code` string, or a thrown error), `terserMinify` models terser's
`minify` (its `result.code`, which may be `undefined`, or a thrown
error).  Only the terser branch applies the `result.code || code`
fallback (a falsiness test, so `undefined` and the empty string both
fall back to the input); exceptions propagate in both branches. -/
def minifyCode (esbuildTransform : String → Except String String)
    (terserMinify : String → Except String (Option String))
    (code : String) (minifier : Minifier) : Except String MinifyResult :=
  let minified : Except String String :=
    match minifier with
    | .esbuild => esbuildTransform code
    | .terser =>
      (terserMinify code).map
        (fun r =>
          match r with
          | some c => if c = "" then code else c
          | none => code)
  minified.map (fun m => ⟨m, utf8Len m, calculateGzipSize m⟩)

/-! ## CDNPackageManager -/

/-- The network, as seen through `fetch`: a URL either responds ok with
a body (`some body`) or fails / responds not-ok (`none`). -/
def Net : Type := String → Option String

/-- The CDN providers of `CDNPackageManager.cdnProviders`. -/
inductive CDNProvider where
  | unpkg
  | jsDelivr
  | skypack
  | esmSh
deriving DecidableEq

/-- The base URL of each provider (`cdnProviders`). -/
def providerBase : CDNProvider → String
  | .unpkg => "https://unpkg.com"
  | .jsDelivr => "https://cdn.jsdelivr.net/npm"
  | .skypack => "https://cdn.skypack.dev"
  | .esmSh => "https://esm.sh"

/-- `version === 'latest' ? packageName : packageName + '@' + version`. -/
def packageSpec (packageName version : String) : String :=
  if version = "latest" then packageName else packageName ++ "@" ++ version

/-- `CDNPackageManager.buildUrl` (every provider case returns the same
`base/spec/path` shape). -/
def buildUrl (cdn : CDNProvider) (spec filePath : String) : String :=
  providerBase cdn ++ "/" ++ spec ++ "/" ++ filePath

/-- The default of `getFileContent`'s optional `version` parameter. -/
def defaultVersion : String := "latest"

/-- `CDNPackageManager.getFileContent`: fetch
`buildUrl(packageSpec, filePath)` and throw when the response is not
ok.  In the source the `version` parameter defaults to `'latest'`;
call sites that omit it pass `defaultVersion` here. -/
def getFileContent (net : Net) (cdn : CDNProvider)
    (packageName filePath version : String) : Except String String :=
  match net (buildUrl cdn (packageSpec packageName version) filePath) with
  | some body => Except.ok body
  | none => Except.error ("File not found: " ++ filePath)

/-- The per-file fetch performed inside `downloadPackage`
(`getFileContent(packageName, file.path, version)`), reduced to its
success value. -/
def fileFetch (net : Net) (cdn : CDNProvider)
    (packageName version : String) : String → Option String :=
  fun path => (getFileContent net cdn packageName path version).toOption

/-- The `kind=file` entries of a listing
(`files.filter(file => file.type === 'file')`). -/
def fileEntries (files : List CDNFile) : List CDNFile :=
  files.filter (fun f => f.type = FKind.file)

/-- The per-file loop body of `downloadPackage`: each successful fetch
`set`s the map, each failure is logged and skipped.  The loop is the
fan-out of `Promise.allSettled` over the file entries; the resulting key
set does not depend on completion order, which this sequential model
fixes to listing order. -/
def downloadLoop (fetch : String → Option String) :
    List CDNFile → List (String × String) → List (String × String)
  | [], m => m
  | f :: fs, m =>
    match fetch f.path with
    | some content => downloadLoop fetch fs (mapSet m f.path content)
    | none => downloadLoop fetch fs m

/-- `CDNPackageManager.downloadPackage`, given the descriptor's file
listing `files` (in the source the listing is re-fetched via
`getPackageInfo`; here it is passed in): download every `kind=file`
entry, tolerating individual failures. -/
def downloadPackage (net : Net) (cdn : CDNProvider)
    (packageName version : String) (files : List CDNFile) :
    List (String × String) :=
  downloadLoop (fileFetch net cdn packageName version) (fileEntries files) []

/-- The candidate entry list of `CDNPackageManager.resolveMainFile`:
`[module, main, 'index.js', 'index.mjs', 'dist/index.js',
'lib/index.js'].filter(Boolean)` — the falsiness filter drops both
missing fields and empty strings. -/
def entryPointCandidates (info : CDNPackageInfo) : List String :=
  ([info.module, info.main, some "index.js", some "index.mjs",
    some "dist/index.js", some "lib/index.js"].filterMap
    (fun o =>
      match o with
      | some s => if s = "" then none else some s
      | none => none))

/-- The per-candidate test of `resolveMainFile`: whether the content
fetch `getFileContent(packageInfo.name, entryPoint)` succeeds — note
the omitted `version` argument, so `defaultVersion` applies. -/
def entryFetchOk (net : Net) (cdn : CDNProvider)
    (info : CDNPackageInfo) (e : String) : Bool :=
  (getFileContent net cdn info.name e defaultVersion).isOk

/-- `CDNPackageManager.resolveMainFile`: try each candidate with an
actual content fetch and return the first that succeeds. -/
def resolveMainFile (net : Net) (cdn : CDNProvider)
    (info : CDNPackageInfo) : Option String :=
  (entryPointCandidates info).find? (entryFetchOk net cdn info)

/-! ## BrowserPackageAnalyzer: strategy selection (`analyzePackage`) -/

/-- Errors escaping the WebContainer path.  `unsupported` is the
`'WebContainer not supported in this environment'` failure thrown by
`WebContainerManager.initialize`. -/
inductive SandboxError where
  | unsupported
  | other (msg : String)
deriving DecidableEq

/-- Errors escaping the CDN path (message text).  The CDN path code
touches only the CDN manager and the bundler, so by construction it
cannot produce a `SandboxError`. -/
structure CdnError where
  msg : String
deriving DecidableEq

/-- An error surfaced by `analyzePackage`, tagged by the strategy that
produced it. -/
inductive AnalyzeError where
  | sandbox (e : SandboxError)
  | cdn (e : CdnError)
deriving DecidableEq

/-- The two analysis strategies. -/
inductive Strategy where
  | webContainer
  | cdn
deriving DecidableEq

/-- The strategy choice of `analyzePackage`:
`this.options.useWebContainer && this.webContainer.isSupported()` (an
absent option reads as `false`). -/
def selectStrategy (useWebContainerOpt sandboxSupported : Bool) : Strategy :=
  if useWebContainerOpt && sandboxSupported then Strategy.webContainer
  else Strategy.cdn

/-- The dispatch skeleton of `analyzePackage`: the outcomes of the two
strategy bodies (`analyzeWithWebContainer`, `analyzeWithCDN`) are passed
as parameters, and the selected one is run. -/
def analyzePackage (useWebContainerOpt sandboxSupported : Bool)
    (runSandbox : Except SandboxError PackageStats)
    (runCdn : Except CdnError PackageStats) :
    Except AnalyzeError PackageStats :=
  match selectStrategy useWebContainerOpt sandboxSupported with
  | .webContainer => runSandbox.mapError AnalyzeError.sandbox
  | .cdn => runCdn.mapError AnalyzeError.cdn

/-- Whether an `analyzePackage` outcome surfaces the
sandbox-unsupported error. -/
def surfacesSandboxUnsupported :
    Except AnalyzeError PackageStats → Bool
  | .error (.sandbox .unsupported) => true
  | _ => false

/-! ## BrowserPackageAnalyzer: CDN entry synthesis (`analyzeWithCDN`) -/

/-- The `resolveMainFile(...) || 'index.js'` fallback (a falsiness
test). -/
def orDefaultEntry (o : Option String) : String :=
  match o with
  | some s => if s = "" then "index.js" else s
  | none => "index.js"

/-- The synthesized entry content of `analyzeWithCDN`: one
`export * from './<imp>';` line per configured custom import, or a
single default re-export of `./index.js`.  A configured empty list is
truthy in JavaScript and yields the empty string. -/
def entryContent (customImports : Option (List String)) : String :=
  match customImports with
  | some imps =>
    sJoinWith "\n"
      (imps.map (fun imp => "export * from \x27./" ++ imp ++ "\x27;"))
  | none => "export * from \x27./index.js\x27;"

/-- The outcome of the entry-selection step of `analyzeWithCDN`: the
entry point later passed to `bundler.bundle`, and the virtual file set
after the synthesis step. -/
structure EntryPrep where
  entryPassedToBundle : String
  files : List (String × String)
deriving DecidableEq

/-- The entry-selection step of `analyzeWithCDN`:
`entryPoint = resolveMainFile(...) || 'index.js'`; then, if
`packageFiles` lacks `entryPoint`, the synthesized content is `set`
under the key `'entry.js'`; finally `bundle(entryPoint, packageFiles)`
is invoked.  `resolved` is the value returned by `resolveMainFile`. -/
def prepareEntry (customImports : Option (List String))
    (resolved : Option String) (packageFiles : List (String × String)) :
    EntryPrep :=
  let entryPoint := orDefaultEntry resolved
  let files :=
    if hasKey packageFiles entryPoint then packageFiles
    else mapSet packageFiles "entry.js" (entryContent customImports)
  ⟨entryPoint, files⟩

/-! ## BrowserPackageAnalyzer: export sizes (`getPackageExportSizes`) -/

/-- The script-extension test of `getPackageExportSizes`. -/
def isScriptPath (p : String) : Bool :=
  strEnds p ".js" || strEnds p ".mjs" || strEnds p ".ts"

/-- The candidate export files: `kind=file` entries whose path ends in
`.js`, `.mjs` or `.ts`. -/
def exportCandidates (files : List CDNFile) : List CDNFile :=
  files.filter (fun f => f.type = FKind.file && isScriptPath f.path)

/-- The per-file body of `getPackageExportSizes`.  `bundleMinify path`
models the composite `bundler.bundle(path, tempFiles)` followed by
`bundler.minifyCode(bundleResult.code)` — an opaque, fallible
collaborator returning the minified `(size, gzipSize)`.  A file whose
content is absent or falsy (`if (!content) return null`), or whose
bundling throws, contributes `null`. -/
def exportAssetFor (packageFiles : List (String × String))
    (bundleMinify : String → Except String (Nat × Nat)) (f : CDNFile) :
    Option ExportAsset :=
  match getKey packageFiles f.path with
  | none => none
  | some content =>
    if content = "" then none
    else
      match bundleMinify f.path with
      | .ok sg => some (⟨f.path, sg.1, sg.2, f.path⟩ : ExportAsset)
      | .error _ => none

/-- The join of `getPackageExportSizes`, producing the `assets` list:
the per-file results in listing order (`Promise.all`), with the nulls
dropped by `filter(Boolean)`. -/
def getPackageExportSizesAssets (files : List CDNFile)
    (packageFiles : List (String × String))
    (bundleMinify : String → Except String (Nat × Nat)) :
    List ExportAsset :=
  ((exportCandidates files).map
    (exportAssetFor packageFiles bundleMinify)).filterMap id

/-- `m` with every entry for key `k` removed: the virtual file set that
would have resulted had the download of `k` failed. -/
def eraseKey (m : List (String × String)) (k : String) :
    List (String × String) :=
  m.filter (fun p => p.1 ≠ k)

/-! # Theorems -/

/-! ## Generic helper lemmas -/

theorem listStarts_of_append (p1 p2 : List Char) :
    ∀ l, listStarts (p1 ++ p2) l = true → listStarts p1 l = true := by
  induction p1 with
  | nil => intro l _; rfl
  | cons a as ih =>
    intro l h
    cases l with
    | nil => simp [listStarts] at h
    | cons b bs =>
      simp only [List.cons_append, listStarts, Bool.and_eq_true] at h ⊢
      exact ⟨h.1, ih bs h.2⟩

theorem strStarts_dot_of_dotSlash (s : String)
    (h : strStarts s "./" = true) : strStarts s "." = true := by
  have e : ("./" : String).data = ('.' :: []) ++ ('/' :: []) := by decide
  have e2 : ("." : String).data = ['.'] := by decide
  unfold strStarts at h ⊢
  rw [e2]
  rw [e] at h
  exact listStarts_of_append _ _ _ h

theorem strStarts_dot_of_dotDotSlash (s : String)
    (h : strStarts s "../" = true) : strStarts s "." = true := by
  have e : ("../" : String).data = ('.' :: []) ++ ('.' :: '/' :: []) := by decide
  have e2 : ("." : String).data = ['.'] := by decide
  unfold strStarts at h ⊢
  rw [e2]
  rw [e] at h
  exact listStarts_of_append _ _ _ h

theorem find?_cons_if {α : Type} (p : α → Bool) (a : α) (l : List α) :
    (a :: l).find? p = if p a then some a else l.find? p := by
  by_cases h : p a = true
  · rw [List.find?_cons_of_pos l h, if_pos h]
  · rw [List.find?_cons_of_neg l h, if_neg h]

/-! ## Lemmas about the `Map` model -/

theorem mapKeys_mapSet (m : List (String × String)) (k v : String) :
    mapKeys (mapSet m k v)
      = if hasKey m k then mapKeys m else mapKeys m ++ [k] := by
  unfold mapSet mapKeys
  by_cases h : hasKey m k
  · rw [if_pos h, if_pos h, List.map_map]
    refine List.map_congr_left (fun p _ => ?_)
    by_cases hp : p.1 = k
    · simp [hp]
    · simp [hp]
  · rw [if_neg h, if_neg h]
    simp

theorem any_map_subst (m : List (String × String)) (k v x : String) :
    (m.map (fun p => if p.1 = k then (k, v) else p)).any
        (fun p => decide (p.1 = x))
      = m.any (fun p => decide (p.1 = x)) := by
  induction m with
  | nil => rfl
  | cons p m ih =>
    simp only [List.map_cons, List.any_cons, ih]
    by_cases hp : p.1 = k
    · simp [hp]
    · simp [hp]

theorem hasKey_mapSet (m : List (String × String)) (k v x : String) :
    hasKey (mapSet m k v) x = (hasKey m x || decide (x = k)) := by
  unfold mapSet hasKey
  by_cases h : m.any (fun p => decide (p.1 = k)) = true
  · rw [if_pos h, any_map_subst]
    by_cases hx : x = k
    · subst hx
      simp [h]
    · simp [hx]
  · rw [if_neg h]
    rw [List.any_append]
    have hsing : ([(k, v)] : List (String × String)).any
        (fun p => decide (p.1 = x)) = decide (x = k) := by
      simp [eq_comm]
    rw [hsing]

theorem getKey_eraseKey (m : List (String × String)) (k x : String) :
    getKey (eraseKey m k) x = if x = k then none else getKey m x := by
  induction m with
  | nil =>
    by_cases hx : x = k <;> simp [eraseKey, getKey, hx]
  | cons p m ih =>
    unfold eraseKey getKey at ih ⊢
    rw [List.filter_cons]
    by_cases hpk : p.1 = k
    · have hc : (decide (p.1 ≠ k)) = false := by simp [hpk]
      rw [hc]
      simp only [Bool.false_eq_true, if_false]
      rw [ih]
      by_cases hxk : x = k
      · simp [hxk]
      · have hpx : ¬ ((fun q : String × String => decide (q.1 = x)) p = true) := by
          simp
          exact fun hp => hxk (hp.symm.trans hpk)
        rw [if_neg hxk, if_neg hxk, find?_cons_if, if_neg hpx]
    · have hc : (decide (p.1 ≠ k)) = true := by simp [hpk]
      rw [hc]
      simp only [if_true]
      rw [find?_cons_if, find?_cons_if]
      by_cases hpx : ((fun q : String × String => decide (q.1 = x)) p = true)
      · have hxk : ¬ x = k := by
          simp at hpx
          exact fun h => hpk (hpx.trans h)
        rw [if_pos hpx, if_pos hpx, if_neg hxk]
      · rw [if_neg hpx, if_neg hpx]
        exact ih

/-! ## Lemmas about `downloadLoop` -/

theorem downloadLoop_keys_subset (fetch : String → Option String) :
    ∀ (fs : List CDNFile) (m : List (String × String)) (x : String),
      x ∈ mapKeys (downloadLoop fetch fs m) →
      x ∈ mapKeys m ∨ x ∈ fs.map (fun f => f.path) := by
  intro fs
  induction fs with
  | nil =>
    intro m x hx
    exact Or.inl (by simpa [downloadLoop] using hx)
  | cons f fs ih =>
    intro m x hx
    cases hfetch : fetch f.path with
    | some c =>
      simp only [downloadLoop, hfetch] at hx
      rcases ih (mapSet m f.path c) x hx with hm | hf2
      · rw [mapKeys_mapSet] at hm
        by_cases hk : hasKey m f.path
        · rw [if_pos hk] at hm
          exact Or.inl hm
        · rw [if_neg hk, List.mem_append] at hm
          rcases hm with hm | hm
          · exact Or.inl hm
          · simp only [List.mem_singleton] at hm
            exact Or.inr (by simp [hm])
      · exact Or.inr (by simp [hf2])
    | none =>
      simp only [downloadLoop, hfetch] at hx
      rcases ih m x hx with hm | hf2
      · exact Or.inl hm
      · exact Or.inr (by simp [hf2])

theorem downloadLoop_keys (fetch : String → Option String) :
    ∀ (fs : List CDNFile) (m : List (String × String)),
      (fs.map (fun f => f.path)).Nodup →
      (∀ f ∈ fs, hasKey m f.path = false) →
      mapKeys (downloadLoop fetch fs m)
        = mapKeys m
          ++ (fs.filter (fun f => (fetch f.path).isSome)).map (fun f => f.path) := by
  intro fs
  induction fs with
  | nil =>
    intro m _ _
    simp [downloadLoop]
  | cons f fs ih =>
    intro m hnd hdisj
    rw [List.map_cons, List.nodup_cons] at hnd
    obtain ⟨hnotin, hnd'⟩ := hnd
    cases hfetch : fetch f.path with
    | some c =>
      simp only [downloadLoop, hfetch]
      rw [ih (mapSet m f.path c) hnd' ?_]
      · rw [mapKeys_mapSet]
        have hm : hasKey m f.path = false := hdisj f (by simp)
        rw [hm]
        simp only [Bool.false_eq_true, if_false]
        rw [List.filter_cons]
        simp only [hfetch, Option.isSome_some, if_true, List.map_cons]
        rw [List.append_assoc, List.singleton_append]
      · intro g hg
        rw [hasKey_mapSet]
        have h1 : hasKey m g.path = false := hdisj g (by simp [hg])
        have h2 : ¬ g.path = f.path := by
          intro he
          exact hnotin (he ▸ List.mem_map_of_mem (fun f => f.path) hg)
        simp [h1, h2]
    | none =>
      simp only [downloadLoop, hfetch]
      rw [ih m hnd' (fun g hg => hdisj g (by simp [hg]))]
      rw [List.filter_cons]
      simp [hfetch]

/-- Claim C5: the key set of `downloadPackage` is always a subset of
the `kind=file` entries of the descriptor's listing; when every
per-file fetch succeeds it equals exactly those entries; and when
exactly one of the N fetches fails the result has exactly N−1 entries
(the operation itself always completes, being a total function).  The
listing paths are assumed distinct, as produced by `getFileList`. -/
theorem downloadPackage_keys (net : Net) (cdn : CDNProvider)
    (packageName version : String) (files : List CDNFile)
    (hnd : ((fileEntries files).map (fun f => f.path)).Nodup) :
    (∀ x ∈ mapKeys (downloadPackage net cdn packageName version files),
        x ∈ (fileEntries files).map (fun f => f.path))
    ∧ ((∀ f ∈ fileEntries files,
          (fileFetch net cdn packageName version f.path).isSome = true) →
        mapKeys (downloadPackage net cdn packageName version files)
          = (fileEntries files).map (fun f => f.path))
    ∧ ((fileEntries files).countP
          (fun f => !(fileFetch net cdn packageName version f.path).isSome) = 1 →
        (mapKeys (downloadPackage net cdn packageName version files)).length
          = (fileEntries files).length - 1) := by
  have hchar := downloadLoop_keys (fileFetch net cdn packageName version)
    (fileEntries files) [] hnd (fun _ _ => rfl)
  refine ⟨?_, ?_, ?_⟩
  · intro x hx
    rcases downloadLoop_keys_subset (fileFetch net cdn packageName version)
        (fileEntries files) [] x hx with hm | hf
    · simp [mapKeys] at hm
    · exact hf
  · intro hall
    unfold downloadPackage
    rw [hchar]
    rw [List.filter_eq_self.mpr hall]
    rfl
  · intro hone
    unfold downloadPackage
    rw [hchar]
    simp only [mapKeys, List.map_nil, List.nil_append, List.length_map]
    rw [← List.countP_eq_length_filter]
    have hsplit := List.length_eq_countP_add_countP
      (fun f => (fileFetch net cdn packageName version f.path).isSome)
      (fileEntries files)
    have hcong : (fileEntries files).countP
        (fun a => decide ¬((fileFetch net cdn packageName version a.path).isSome = true))
        = (fileEntries files).countP
          (fun f => !(fileFetch net cdn packageName version f.path).isSome) := by
      refine List.countP_congr (fun f _ => ?_)
      cases (fileFetch net cdn packageName version f.path).isSome <;> simp
    rw [hcong, hone] at hsplit
    omega

/-- Witness for C5: a concrete four-entry listing (three files, one
directory) and a network on which exactly the second file fetch fails;
the downloaded map has exactly 3 − 1 entries. -/
theorem downloadPackage_keys_witness :
    ((fileEntries [⟨"a.js", 1, FKind.file⟩, ⟨"b.js", 2, FKind.file⟩,
        ⟨"c.js", 3, FKind.file⟩, ⟨"lib", 0, FKind.directory⟩]).map
        (fun f => f.path)).Nodup
    ∧ (mapKeys (downloadPackage
          (fun url => if url = "https://unpkg.com/pkg/a.js" then some "A"
            else if url = "https://unpkg.com/pkg/c.js" then some "C" else none)
          CDNProvider.unpkg "pkg" "latest"
          [⟨"a.js", 1, FKind.file⟩, ⟨"b.js", 2, FKind.file⟩,
           ⟨"c.js", 3, FKind.file⟩, ⟨"lib", 0, FKind.directory⟩])).length
        = (fileEntries [⟨"a.js", 1, FKind.file⟩, ⟨"b.js", 2, FKind.file⟩,
            ⟨"c.js", 3, FKind.file⟩, ⟨"lib", 0, FKind.directory⟩]).length - 1 :=
  ⟨by decide,
    (downloadPackage_keys
      (fun url => if url = "https://unpkg.com/pkg/a.js" then some "A"
        else if url = "https://unpkg.com/pkg/c.js" then some "C" else none)
      CDNProvider.unpkg "pkg" "latest"
      [⟨"a.js", 1, FKind.file⟩, ⟨"b.js", 2, FKind.file⟩,
       ⟨"c.js", 3, FKind.file⟩, ⟨"lib", 0, FKind.directory⟩]
      (by decide)).2.2 (by decide)⟩

/-! ## Claim C4: relative import resolution -/

theorem resolveImport_eq_relMatch (s p : String) (F : List (String × String))
    (hcond : (strStarts s "./" || strStarts s "../") = true)
    (hdot : strStarts s "." = true) :
    resolveImport s p F
      = (extList.find? (fun ext => hasKey F (relJoin s p ++ ext))).map
          (fun ext => relJoin s p ++ ext) := by
  unfold resolveImport relJoin
  rw [hcond, hdot]
  simp only [if_true, Bool.not_true]
  rcases hf : (extList.find?
      (fun ext => hasKey F
        (resolvePath (sJoinWith "/" ((sSplitSlash p).dropLast)) s ++ ext))) with _ | ext
  · simp
  · simp

/-- Claim C4: for a relative specifier, `resolveImport` joins the
importer's directory with the specifier and probes the suffixes of
`extList` in exactly that order, returning the first candidate present
in the file set (none when no suffix matches); and a joined path that
already names a key verbatim resolves to itself (empty-suffix
idempotence). -/
theorem resolveImport_relative_first_match (s p : String)
    (F : List (String × String))
    (h : strStarts s "./" = true ∨ strStarts s "../" = true) :
    resolveImport s p F
      = (extList.map (fun ext => relJoin s p ++ ext)).find?
          (fun c => hasKey F c)
    ∧ (hasKey F (relJoin s p) = true →
        resolveImport s p F = some (relJoin s p)) := by
  have hcond : (strStarts s "./" || strStarts s "../") = true := by
    rcases h with h | h <;> simp [h]
  have hdot : strStarts s "." = true := by
    rcases h with h | h
    · exact strStarts_dot_of_dotSlash s h
    · exact strStarts_dot_of_dotDotSlash s h
  have heq := resolveImport_eq_relMatch s p F hcond hdot
  constructor
  · rw [heq, List.find?_map]
    rfl
  · intro hk
    rw [heq]
    rw [show extList
        = "" :: [".js", ".mjs", ".ts", "/index.js", "/index.mjs", "/index.ts"]
      from rfl]
    rw [List.find?_cons_of_pos]
    · simp [String.append_empty]
    · simpa [String.append_empty] using hk

/-- Witness for C4: the specifier `./utils` imported from
`src/index.js` against a set holding `src/utils.js`. -/
theorem resolveImport_relative_first_match_witness :
    (strStarts "./utils" "./" = true ∨ strStarts "./utils" "../" = true)
    ∧ (resolveImport "./utils" "src/index.js" [("src/utils.js", "x")]
        = (extList.map (fun ext => relJoin "./utils" "src/index.js" ++ ext)).find?
            (fun c => hasKey [("src/utils.js", "x")] c)
      ∧ (hasKey [("src/utils.js", "x")] (relJoin "./utils" "src/index.js") = true →
          resolveImport "./utils" "src/index.js" [("src/utils.js", "x")]
            = some (relJoin "./utils" "src/index.js"))) :=
  ⟨Or.inl (by decide),
    resolveImport_relative_first_match "./utils" "src/index.js"
      [("src/utils.js", "x")] (Or.inl (by decide))⟩

/-! ## Claim C6: entry-point precedence in `resolveMainFile` -/

/-- Claim C6: `resolveMainFile` tries, in order, the descriptor's
`module` field, its `main` field, then the fixed fallbacks `index.js`,
`index.mjs`, `dist/index.js`, `lib/index.js`; each candidate is probed
with an actual content fetch and the first success is returned, `none`
when all fail.  Stated for a descriptor whose `module` and `main`
fields are both present and non-empty (empty strings are dropped by the
falsiness filter). -/
theorem resolveMainFile_precedence (net : Net) (cdn : CDNProvider)
    (info : CDNPackageInfo) (m mn : String)
    (hmod : info.module = some m) (hmain : info.main = some mn)
    (hm : m ≠ "") (hmn : mn ≠ "") :
    resolveMainFile net cdn info
      = (if entryFetchOk net cdn info m then some m
         else if entryFetchOk net cdn info mn then some mn
         else if entryFetchOk net cdn info "index.js" then some "index.js"
         else if entryFetchOk net cdn info "index.mjs" then some "index.mjs"
         else if entryFetchOk net cdn info "dist/index.js" then
           some "dist/index.js"
         else if entryFetchOk net cdn info "lib/index.js" then
           some "lib/index.js"
         else none) := by
  have hc : entryPointCandidates info
      = [m, mn, "index.js", "index.mjs", "dist/index.js", "lib/index.js"] := by
    unfold entryPointCandidates
    rw [hmod, hmain]
    simp only [List.filterMap_cons, List.filterMap_nil]
    rw [if_neg hm, if_neg hmn]
    rw [if_neg (show ¬("index.js" : String) = "" by decide)]
    rw [if_neg (show ¬("index.mjs" : String) = "" by decide)]
    rw [if_neg (show ¬("dist/index.js" : String) = "" by decide)]
    rw [if_neg (show ¬("lib/index.js" : String) = "" by decide)]
  unfold resolveMainFile
  rw [hc]
  rw [find?_cons_if, find?_cons_if, find?_cons_if, find?_cons_if,
    find?_cons_if, find?_cons_if]
  rfl

/-- Witness for C6: with `module: "esm/index.js"` and
`main: "index.js"`, a network serving `esm/index.js` resolves to
`esm/index.js`; a network serving only `index.js` falls through to
`main`. -/
theorem resolveMainFile_precedence_witness :
    (("esm/index.js" : String) ≠ "" ∧ ("index.js" : String) ≠ "")
    ∧ resolveMainFile
        (fun url => if url = "https://unpkg.com/pkg/esm/index.js"
          then some "esm" else none)
        CDNProvider.unpkg
        ⟨"pkg", "1.0.0", [], some "index.js", some "esm/index.js"⟩
        = some "esm/index.js"
    ∧ resolveMainFile
        (fun url => if url = "https://unpkg.com/pkg/index.js"
          then some "cjs" else none)
        CDNProvider.unpkg
        ⟨"pkg", "1.0.0", [], some "index.js", some "esm/index.js"⟩
        = some "index.js" :=
  ⟨⟨by decide, by decide⟩,
    (resolveMainFile_precedence
      (fun url => if url = "https://unpkg.com/pkg/esm/index.js"
        then some "esm" else none)
      CDNProvider.unpkg
      ⟨"pkg", "1.0.0", [], some "index.js", some "esm/index.js"⟩
      "esm/index.js" "index.js" rfl rfl (by decide) (by decide)).trans
      (by decide),
    (resolveMainFile_precedence
      (fun url => if url = "https://unpkg.com/pkg/index.js"
        then some "cjs" else none)
      CDNProvider.unpkg
      ⟨"pkg", "1.0.0", [], some "index.js", some "esm/index.js"⟩
      "esm/index.js" "index.js" rfl rfl (by decide) (by decide)).trans
      (by decide)⟩

/-! ## Claim C9: `resolveMainFile` probes the latest version -/

theorem str_append_ne (pre s target : String)
    (h : target.data.take pre.data.length ≠ pre.data) :
    ¬(pre ++ s = target) := by
  intro he
  apply h
  rw [← he, String.data_append, List.take_left]

/-- Claim C9: every candidate fetch in `resolveMainFile` omits the
`version` argument, so `getFileContent` defaults it to `'latest'` and
the probed URLs are built from the bare package name: the result is a
function of the network's responses at latest-version URLs only,
regardless of the version the descriptor was fetched for. -/
theorem resolveMainFile_probes_latest (net : Net) (cdn : CDNProvider)
    (info : CDNPackageInfo) :
    resolveMainFile net cdn info
      = (entryPointCandidates info).find?
          (fun e => (net (buildUrl cdn info.name e)).isSome)
    ∧ (∀ net' : Net,
        (∀ path, net (buildUrl cdn info.name path)
            = net' (buildUrl cdn info.name path)) →
        resolveMainFile net cdn info = resolveMainFile net' cdn info) := by
  have hpred : ∀ nt : Net, entryFetchOk nt cdn info
      = (fun e => (nt (buildUrl cdn info.name e)).isSome) := by
    intro nt
    funext e
    unfold entryFetchOk getFileContent packageSpec defaultVersion
    rw [if_pos rfl]
    cases nt (buildUrl cdn info.name e) <;> rfl
  constructor
  · unfold resolveMainFile
    rw [hpred]
  · intro net' hagree
    unfold resolveMainFile
    rw [hpred net, hpred net']
    have hfun : (fun e => (net (buildUrl cdn info.name e)).isSome)
        = (fun e => (net' (buildUrl cdn info.name e)).isSome) := by
      funext e
      rw [hagree e]
    rw [hfun]

/-- Witness for C9: a network holding a file only at the pinned
version's URL (`pkg@1.0.0/index.js`) agrees with the empty network on
every latest-version URL, so resolution cannot distinguish them — the
version-pinned file is invisible to the probes. -/
theorem resolveMainFile_probes_latest_witness :
    (∀ path,
      (fun url => if url = "https://unpkg.com/pkg@1.0.0/index.js"
        then some "v" else none : Net)
          (buildUrl CDNProvider.unpkg "pkg" path)
        = (fun _ => none : Net) (buildUrl CDNProvider.unpkg "pkg" path))
    ∧ resolveMainFile
        (fun url => if url = "https://unpkg.com/pkg@1.0.0/index.js"
          then some "v" else none)
        CDNProvider.unpkg ⟨"pkg", "1.0.0", [], none, none⟩
      = resolveMainFile (fun _ => none) CDNProvider.unpkg
          ⟨"pkg", "1.0.0", [], none, none⟩ := by
  have hne : ∀ path,
      ¬(buildUrl CDNProvider.unpkg "pkg" path
        = "https://unpkg.com/pkg@1.0.0/index.js") := by
    intro path
    unfold buildUrl providerBase
    exact str_append_ne _ path _ (by decide)
  have hagree : ∀ path,
      (fun url => if url = "https://unpkg.com/pkg@1.0.0/index.js"
        then some "v" else none : Net)
          (buildUrl CDNProvider.unpkg "pkg" path)
        = (fun _ => none : Net) (buildUrl CDNProvider.unpkg "pkg" path) := by
    intro path
    simp only
    rw [if_neg (hne path)]
  exact ⟨hagree,
    (resolveMainFile_probes_latest
      (fun url => if url = "https://unpkg.com/pkg@1.0.0/index.js"
        then some "v" else none)
      CDNProvider.unpkg ⟨"pkg", "1.0.0", [], none, none⟩).2
      (fun _ => none) hagree⟩

/-! ## Claims C8 and C10: `getPackageExportSizes` batch semantics -/

theorem exportAssetFor_eq_some (pf : List (String × String))
    (bm : String → Except String (Nat × Nat)) (f : CDNFile)
    (a : ExportAsset) :
    exportAssetFor pf bm f = some a
      ↔ ∃ content sz gz,
          getKey pf f.path = some content ∧ content ≠ "" ∧
          bm f.path = Except.ok (sz, gz) ∧
          a = ⟨f.path, sz, gz, f.path⟩ := by
  constructor
  · intro h
    unfold exportAssetFor at h
    split at h
    · exact absurd h (by simp)
    next content hk =>
      split at h
      · exact absurd h (by simp)
      next hne =>
        split at h
        next sg hbm =>
          simp only [Option.some.injEq] at h
          exact ⟨content, sg.1, sg.2, hk, hne,
            by rw [hbm, Prod.mk.eta], h.symm⟩
        next e hbm => exact absurd h (by simp)
  · rintro ⟨content, sz, gz, hk, hne, hbm, rfl⟩
    unfold exportAssetFor
    rw [hk]
    simp [hne, hbm]

theorem mem_exportAssets (files : List CDNFile)
    (pf : List (String × String))
    (bm : String → Except String (Nat × Nat)) (a : ExportAsset) :
    a ∈ getPackageExportSizesAssets files pf bm
      ↔ ∃ f ∈ exportCandidates files, ∃ content sz gz,
          getKey pf f.path = some content ∧ content ≠ "" ∧
          bm f.path = Except.ok (sz, gz) ∧
          a = ⟨f.path, sz, gz, f.path⟩ := by
  unfold getPackageExportSizesAssets
  rw [List.filterMap_map, Function.id_comp, List.mem_filterMap]
  constructor
  · rintro ⟨f, hf, hg⟩
    exact ⟨f, hf, (exportAssetFor_eq_some pf bm f a).mp hg⟩
  · rintro ⟨f, hf, hrest⟩
    exact ⟨f, hf, (exportAssetFor_eq_some pf bm f a).mpr hrest⟩

/-- Claim C8: `getPackageExportSizes` enumerates the `kind=file`
script-extension entries and attempts an independent bundle+minify per
file; a per-file bundling failure only drops that file's asset and
never aborts the batch, while every candidate with present, non-empty
content and a successful bundle contributes its asset; conversely every
returned asset comes from such a successful candidate. -/
theorem getPackageExportSizes_partial_failure (files : List CDNFile)
    (pf : List (String × String))
    (bm : String → Except String (Nat × Nat)) (f : CDNFile)
    (hf : f ∈ exportCandidates files) :
    (∀ content, getKey pf f.path = some content → content ≠ "" →
      ∀ sz gz, bm f.path = Except.ok (sz, gz) →
        (⟨f.path, sz, gz, f.path⟩ : ExportAsset)
          ∈ getPackageExportSizesAssets files pf bm)
    ∧ (∀ e, bm f.path = Except.error e →
        ∀ a ∈ getPackageExportSizesAssets files pf bm, a.path ≠ f.path)
    ∧ (∀ a ∈ getPackageExportSizesAssets files pf bm,
        ∃ g ∈ exportCandidates files, a.path = g.path
          ∧ a.exportName = g.path
          ∧ bm g.path = Except.ok (a.size, a.gzipSize)
          ∧ ∃ content, getKey pf g.path = some content ∧ content ≠ "") := by
  refine ⟨?_, ?_, ?_⟩
  · intro content hk hne sz gz hbm
    exact (mem_exportAssets files pf bm _).mpr
      ⟨f, hf, content, sz, gz, hk, hne, hbm, rfl⟩
  · intro e hbm a ha hpath
    obtain ⟨g, _, content, sz, gz, _, _, hok, rfl⟩ :=
      (mem_exportAssets files pf bm a).mp ha
    rw [show g.path = f.path from hpath, hbm] at hok
    exact absurd hok (by simp)
  · intro a ha
    obtain ⟨g, hg, content, sz, gz, hk, hne, hok, rfl⟩ :=
      (mem_exportAssets files pf bm a).mp ha
    exact ⟨g, hg, rfl, rfl, hok, content, hk, hne⟩

/-- Witness for C8: three candidate script files, all downloaded with
non-empty content, where bundling the second throws; the result holds
exactly the first and third assets. -/
theorem getPackageExportSizes_partial_failure_witness :
    ((⟨"b.js", 2, FKind.file⟩ : CDNFile)
        ∈ exportCandidates [⟨"a.js", 1, FKind.file⟩, ⟨"b.js", 2, FKind.file⟩,
            ⟨"c.js", 3, FKind.file⟩])
    ∧ (∀ a ∈ getPackageExportSizesAssets
          [⟨"a.js", 1, FKind.file⟩, ⟨"b.js", 2, FKind.file⟩,
           ⟨"c.js", 3, FKind.file⟩]
          [("a.js", "A"), ("b.js", "B"), ("c.js", "C")]
          (fun p => if p = "b.js" then Except.error "boom"
            else Except.ok (10, 7)),
        a.path ≠ "b.js")
    ∧ getPackageExportSizesAssets
        [⟨"a.js", 1, FKind.file⟩, ⟨"b.js", 2, FKind.file⟩,
         ⟨"c.js", 3, FKind.file⟩]
        [("a.js", "A"), ("b.js", "B"), ("c.js", "C")]
        (fun p => if p = "b.js" then Except.error "boom"
          else Except.ok (10, 7))
        = [⟨"a.js", 10, 7, "a.js"⟩, ⟨"c.js", 10, 7, "c.js"⟩] :=
  ⟨by decide,
    (getPackageExportSizes_partial_failure
      [⟨"a.js", 1, FKind.file⟩, ⟨"b.js", 2, FKind.file⟩,
       ⟨"c.js", 3, FKind.file⟩]
      [("a.js", "A"), ("b.js", "B"), ("c.js", "C")]
      (fun p => if p = "b.js" then Except.error "boom"
        else Except.ok (10, 7))
      ⟨"b.js", 2, FKind.file⟩ (by decide)).2.1 "boom" rfl,
    by decide⟩

/-- Claim C10: a candidate script file whose downloaded content is the
empty string is dropped from the returned assets for every possible
bundler behaviour (no bundling outcome is consulted for it), and the
batch result is the same as if the file's download had failed (its
entry erased from the virtual file set). -/
theorem getPackageExportSizes_empty_content_dropped (files : List CDNFile)
    (pf : List (String × String))
    (bm : String → Except String (Nat × Nat)) (f : CDNFile)
    (hf : f ∈ exportCandidates files)
    (hc : getKey pf f.path = some "") :
    (∀ a ∈ getPackageExportSizesAssets files pf bm, a.path ≠ f.path)
    ∧ getPackageExportSizesAssets files pf bm
        = getPackageExportSizesAssets files (eraseKey pf f.path) bm := by
  constructor
  · intro a ha hpath
    obtain ⟨g, _, content, sz, gz, hk, hne, _, rfl⟩ :=
      (mem_exportAssets files pf bm a).mp ha
    rw [show g.path = f.path from hpath, hc] at hk
    exact hne (Option.some.injEq .. ▸ hk).symm
  · unfold getPackageExportSizesAssets
    refine congrArg _ (List.map_congr_left (fun g _ => ?_))
    unfold exportAssetFor
    by_cases hgf : g.path = f.path
    · rw [hgf, hc, getKey_eraseKey, if_pos rfl]
      simp
    · rw [getKey_eraseKey, if_neg hgf]

/-- Witness for C10: a three-file batch in which `b.js` was downloaded
as the empty string; even with a bundler that succeeds on every path,
`b.js` contributes no asset, exactly as when its entry is absent. -/
theorem getPackageExportSizes_empty_content_dropped_witness :
    ((⟨"b.js", 2, FKind.file⟩ : CDNFile)
        ∈ exportCandidates [⟨"a.js", 1, FKind.file⟩, ⟨"b.js", 2, FKind.file⟩,
            ⟨"c.js", 3, FKind.file⟩])
    ∧ getKey [("a.js", "A"), ("b.js", ""), ("c.js", "C")] "b.js" = some ""
    ∧ (∀ a ∈ getPackageExportSizesAssets
          [⟨"a.js", 1, FKind.file⟩, ⟨"b.js", 2, FKind.file⟩,
           ⟨"c.js", 3, FKind.file⟩]
          [("a.js", "A"), ("b.js", ""), ("c.js", "C")]
          (fun _ => Except.ok (10, 7)),
        a.path ≠ "b.js") :=
  ⟨by decide, by decide,
    (getPackageExportSizes_empty_content_dropped
      [⟨"a.js", 1, FKind.file⟩, ⟨"b.js", 2, FKind.file⟩,
       ⟨"c.js", 3, FKind.file⟩]
      [("a.js", "A"), ("b.js", ""), ("c.js", "C")]
      (fun _ => Except.ok (10, 7))
      ⟨"b.js", 2, FKind.file⟩ (by decide) (by decide)).1⟩

/-! ## Claim C1: CDN entry synthesis -/

/-- Claim C1 (code bug evidence): in `analyzeWithCDN`, when the
resolved entry path (`'index.js'` after the fallback) is not a key of
the virtual file set, the synthesized re-export module is stored under
the key `'entry.js'`, yet the entry point passed on to
`bundler.bundle` is still `'index.js'` — a path absent from the file
set — so the bundling step never runs on the synthesized module. -/
theorem analyzeWithCDN_bundles_missing_entry :
    (prepareEntry none none []).entryPassedToBundle = "index.js"
    ∧ getKey (prepareEntry none none []).files "entry.js"
        = some (entryContent none)
    ∧ getKey (prepareEntry none none []).files
        (prepareEntry none none []).entryPassedToBundle = none
    ∧ (prepareEntry (some ["debounce", "get"]) none []).entryPassedToBundle
        = "index.js"
    ∧ getKey (prepareEntry (some ["debounce", "get"]) none []).files
        "entry.js" = some "export * from \x27./debounce\x27;\nexport * from \x27./get\x27;"
    ∧ getKey (prepareEntry (some ["debounce", "get"]) none []).files
        "index.js" = none := by
  refine ⟨rfl, by decide, by decide, rfl, by decide, by decide⟩

/-! ## Claim C2: minification fallback -/

/-- Counterexample to claim C2 as stated: with the fast (esbuild)
strategy, a minifier exception propagates out of `minifyCode` (failing
the analysis instead of degrading), and an empty transform output is
returned as-is instead of the original code. -/
theorem minifyCode_failure_not_degraded_cex :
    minifyCode (fun _ => Except.error "transform failed")
        (fun s => Except.ok (some s)) "const x = 1" Minifier.esbuild
      = Except.error "transform failed"
    ∧ minifyCode (fun _ => Except.ok "") (fun s => Except.ok (some s))
        "const x = 1" Minifier.esbuild
      = Except.ok ⟨"", 0, 0⟩
    ∧ ("" : String) ≠ "const x = 1" :=
  ⟨rfl, rfl, by decide⟩

/-- Claim C2 as amended: only the ast-based (terser) strategy falls
back to the original code, and only when the minifier returns without
output (`undefined` or the empty string, the falsy values); the fast
(esbuild) strategy uses the transform output as-is; and an exception
from either minifier propagates out of `minifyCode`, failing the
analysis. -/
theorem minifyCode_terser_fallback
    (esbuildTransform : String → Except String String)
    (terserMinify : String → Except String (Option String))
    (code : String) :
    ((terserMinify code = Except.ok none
        ∨ terserMinify code = Except.ok (some "")) →
      minifyCode esbuildTransform terserMinify code Minifier.terser
        = Except.ok ⟨code, utf8Len code, calculateGzipSize code⟩)
    ∧ (∀ e, terserMinify code = Except.error e →
        minifyCode esbuildTransform terserMinify code Minifier.terser
          = Except.error e)
    ∧ (∀ e, esbuildTransform code = Except.error e →
        minifyCode esbuildTransform terserMinify code Minifier.esbuild
          = Except.error e)
    ∧ (∀ out, esbuildTransform code = Except.ok out →
        minifyCode esbuildTransform terserMinify code Minifier.esbuild
          = Except.ok ⟨out, utf8Len out, calculateGzipSize out⟩) := by
  refine ⟨?_, ?_, ?_, ?_⟩
  · rintro (h | h) <;> (unfold minifyCode; rw [h]; rfl)
  · intro e h
    unfold minifyCode
    rw [h]
    rfl
  · intro e h
    unfold minifyCode
    rw [h]
    rfl
  · intro out h
    unfold minifyCode
    rw [h]
    rfl

/-- Witness for C2 (amended): a terser run with no output degrades to
the original code; an esbuild exception propagates. -/
theorem minifyCode_terser_fallback_witness :
    minifyCode (fun _ => Except.error "boom") (fun _ => Except.ok none)
        "const x = 1" Minifier.terser
      = Except.ok ⟨"const x = 1", utf8Len "const x = 1",
          calculateGzipSize "const x = 1"⟩
    ∧ minifyCode (fun _ => Except.error "boom") (fun _ => Except.ok none)
        "const x = 1" Minifier.esbuild = Except.error "boom" :=
  ⟨(minifyCode_terser_fallback (fun _ => Except.error "boom")
      (fun _ => Except.ok none) "const x = 1").1 (Or.inl rfl),
    (minifyCode_terser_fallback (fun _ => Except.error "boom")
      (fun _ => Except.ok none) "const x = 1").2.2.1 "boom" rfl⟩

/-! ## Claim C3: strategy selection and `SandboxUnsupported` -/

/-- Counterexample to claim C3 as stated: when the sandbox strategy is
explicitly requested (`useWebContainer = true`) and the capability
check fails (`isSupported() = false`), `analyzePackage` surfaces no
sandbox-unsupported error — it silently runs the CDN strategy and
returns its result. -/
theorem sandbox_unsupported_not_surfaced_cex :
    surfacesSandboxUnsupported
        (analyzePackage true false (Except.error SandboxError.unsupported)
          (Except.ok ⟨"chalk", 5, 2, none, 0, false, false, false, true,
            [], []⟩)) = false
    ∧ analyzePackage true false (Except.error SandboxError.unsupported)
        (Except.ok ⟨"chalk", 5, 2, none, 0, false, false, false, true,
          [], []⟩)
      = Except.ok ⟨"chalk", 5, 2, none, 0, false, false, false, true,
          [], []⟩ :=
  ⟨rfl, rfl⟩

theorem surfaces_cdn_false (runCdn : Except CdnError PackageStats) :
    surfacesSandboxUnsupported (runCdn.mapError AnalyzeError.cdn) = false := by
  cases runCdn <;> rfl

theorem surfaces_sandbox_elim (runS : Except SandboxError PackageStats)
    (h : surfacesSandboxUnsupported (runS.mapError AnalyzeError.sandbox)
      = true) :
    runS = Except.error SandboxError.unsupported := by
  rcases runS with e | st
  · cases e with
    | unsupported => rfl
    | other msg =>
      exact absurd h (by simp [surfacesSandboxUnsupported, Except.mapError])
  · exact absurd h (by simp [surfacesSandboxUnsupported, Except.mapError])

/-- Claim C3 as amended: the sandbox strategy runs exactly when it was
explicitly requested and the capability check succeeds; when it was
requested but the check fails, `analyzePackage` silently falls back to
the CDN strategy, surfacing no error; and a sandbox-unsupported error
can only come out of the sandbox path, never the CDN strategy. -/
theorem analyzePackage_strategy_selection (u s : Bool)
    (runSandbox : Except SandboxError PackageStats)
    (runCdn : Except CdnError PackageStats) :
    (selectStrategy u s = Strategy.webContainer ↔ (u = true ∧ s = true))
    ∧ (surfacesSandboxUnsupported (analyzePackage u s runSandbox runCdn)
          = true →
        u = true ∧ s = true
          ∧ runSandbox = Except.error SandboxError.unsupported)
    ∧ ((u = true ∧ s = false) →
        analyzePackage u s runSandbox runCdn
          = runCdn.mapError AnalyzeError.cdn)
    ∧ (selectStrategy u s = Strategy.cdn →
        surfacesSandboxUnsupported (analyzePackage u s runSandbox runCdn)
          = false) := by
  refine ⟨?_, ?_, ?_, ?_⟩
  · cases u <;> cases s <;> simp [selectStrategy]
  · intro h
    cases u <;> cases s
    · have h2 : surfacesSandboxUnsupported
          (Except.mapError AnalyzeError.cdn runCdn) = true := h
      rw [surfaces_cdn_false runCdn] at h2
      exact absurd h2 (by simp)
    · have h2 : surfacesSandboxUnsupported
          (Except.mapError AnalyzeError.cdn runCdn) = true := h
      rw [surfaces_cdn_false runCdn] at h2
      exact absurd h2 (by simp)
    · have h2 : surfacesSandboxUnsupported
          (Except.mapError AnalyzeError.cdn runCdn) = true := h
      rw [surfaces_cdn_false runCdn] at h2
      exact absurd h2 (by simp)
    · exact ⟨rfl, rfl, surfaces_sandbox_elim runSandbox h⟩
  · rintro ⟨hu, hs⟩
    subst hu
    subst hs
    rfl
  · intro h
    cases u <;> cases s
    · exact surfaces_cdn_false runCdn
    · exact surfaces_cdn_false runCdn
    · exact surfaces_cdn_false runCdn
    · exact absurd h (by simp [selectStrategy])

/-- Witness for C3 (amended): the requested-but-unsupported case falls
through to the CDN strategy. -/
theorem analyzePackage_strategy_selection_witness :
    ((true = true ∧ false = false)) ∧
    analyzePackage true false (Except.error SandboxError.unsupported)
        (Except.ok ⟨"p", 1, 1, none, 0, false, false, false, false, [], []⟩)
      = (Except.ok ⟨"p", 1, 1, none, 0, false, false, false, false, [],
          []⟩ : Except CdnError PackageStats).mapError AnalyzeError.cdn :=
  ⟨⟨rfl, rfl⟩,
    (analyzePackage_strategy_selection true false
      (Except.error SandboxError.unsupported)
      (Except.ok ⟨"p", 1, 1, none, 0, false, false, false, false, [], []⟩)).2.2.1
      ⟨rfl, rfl⟩⟩

/-! ## Claim C7: compressed-size fallback -/

/-- Counterexample to claim C7 as stated: at a 45-byte code string the
binary64 product `45 * 0.7` is `31.499999999999996`, so the code's
fallback returns 31, while the exact value `round(45 × 0.7) =
round(31.5)` is 32. -/
theorem calculateGzipSize_fallback_cex :
    calculateGzipSize "aaaaaaaaaaaaaaaaaaaaaaaaaaaaaaaaaaaaaaaaaaaaa" = 31
    ∧ specGzipEstimate "aaaaaaaaaaaaaaaaaaaaaaaaaaaaaaaaaaaaaaaaaaaaa" = 32
    ∧ (31 : Nat) ≠ 32 :=
  ⟨by decide, by decide, by decide⟩

set_option maxRecDepth 10000 in
/-- Claim C7 as amended: the fallback is deterministic and reproducible
— it is a function of the UTF-8 byte length alone, namely `Math.round`
of the binary64 product of the length with the double nearest 0.7 —
and it agrees with the exact `round(n × 0.7)` for every length `n`
below 1000 that is not an exact-tie length (`n % 10 = 5`, where double
rounding can fall below the half and the floor is returned instead). -/
theorem calculateGzipSize_fallback_deterministic (c1 c2 : String)
    (hlen : utf8Len c1 = utf8Len c2) :
    calculateGzipSize c1 = calculateGzipSize c2
    ∧ calculateGzipSize c1 = gzipFallbackOfLen (utf8Len c1)
    ∧ (∀ n, n < 1000 → n % 10 ≠ 5 →
        gzipFallbackOfLen n = (7 * n + 5) / 10) := by
  refine ⟨?_, rfl, ?_⟩
  · unfold calculateGzipSize
    rw [hlen]
  · decide

/-- Witness for C7 (amended): two distinct 3-byte strings share the
same fallback value. -/
theorem calculateGzipSize_fallback_deterministic_witness :
    utf8Len "abc" = utf8Len "xyz"
    ∧ calculateGzipSize "abc" = calculateGzipSize "xyz" :=
  ⟨by decide,
    (calculateGzipSize_fallback_deterministic "abc" "xyz" (by decide)).1⟩

end PackageScout
